import Mathlib

/-!
Shallow embedding of the chat request pipeline of
`src/voosh-rag-backend/src/server.js` (RAG-Powered-Chatbot-for-News-Websites).

The embedding covers:
* the in-memory session store fallback (`rpush` / `lrange` / `del` on a `Map`,
  server.js lines 54-71) and the chat history helpers `pushMsg` / `getHistory` /
  `resetSession` (lines 73-90), including the `JSON.stringify` / `JSON.parse`
  serialization of messages that those helpers perform;
* the Gemini retry loop `askGemini` (lines 139-158), modelled as a pure
  function over an oracle giving the outcome of each `askGeminiRaw` attempt,
  returning the outcome together with the number of attempts made and the
  sequence of back-off sleeps performed;
* the pure text builders `buildPrompt` (lines 160-172) and `busyFallback`
  (lines 175-178);
* the `POST /api/chat` handler (lines 229-259), modelled as a function from an
  environment (outcomes of the external calls) and a store state to the HTTP
  response, the new store state, and the trace of messages pushed.

Machine floats (the retrieval `score`) are never inspected by any of this
logic; the `score` field is carried as an opaque integer placeholder.
-/

set_option maxHeartbeats 1000000

namespace VooshRag

/-! ## Generic list helpers mirroring the JavaScript idioms -/

/-- JavaScript's `Array.prototype.join(sep)`: concatenation with `sep`
between consecutive elements (empty string for the empty array). -/
def joinSep (sep : String) : List String → String
  | [] => ""
  | [x] => x
  | x :: y :: xs => x ++ sep ++ joinSep sep (y :: xs)

/-- JavaScript's `Array.prototype.map((elem, idx) => ...)` with a running
0-based index, generalized to an arbitrary starting index `i`. -/
def enumMap (f : Nat → α → β) : Nat → List α → List β
  | _, [] => []
  | i, a :: as => f i a :: enumMap f (i + 1) as

/-! ## Data model -/

/-- A response source, as built by the chat handler (server.js line 251):
`{ id: i + 1, title: p.title, url: p.url }`. -/
structure Source where
  id : Nat
  title : String
  url : String
deriving DecidableEq

/-- A retrieved passage, as produced by `qdrantSearch` (server.js lines
114-119): `{ score, title, url, chunk }`. The float `score` is never read by
the chat pipeline; it is carried as an opaque integer placeholder. -/
structure Passage where
  score : Int
  title : String
  url : String
  chunk : String
deriving DecidableEq

/-- A stored chat message. `pushMsg` (server.js line 78) serializes
`{ role, content, ts: Date.now(), ...extra }`; the only `extra` key the data
model ever foresees is an optional `sources` list, so the object is modelled
as this structure with `sources : Option _` (`none` = key absent, which is
what every call site in server.js produces, since both calls pass no
`extra`). -/
structure Msg where
  role : String
  content : String
  ts : Nat
  sources : Option (List Source)
deriving DecidableEq

/-! ## JSON serialization (`JSON.stringify` of a message object)

`pushMsg` stores `JSON.stringify({role, content, ts, ...extra})` and
`getHistory` maps `JSON.parse` over the stored strings.  The encoder below
follows `JSON.stringify`'s string-escaping rules: `"` and `\` are escaped,
the control characters with short forms use them (`\b \t \n \f \r`), and the
remaining control characters below U+0020 are emitted as `\u00XX` with
lowercase hex digits. -/

/-- Escape one character the way `JSON.stringify` escapes characters inside
a string literal. `Nat.digitChar` gives the lowercase hex digits. -/
def escChar (c : Char) : List Char :=
  if c = '"' then ['\\', '"']
  else if c = '\\' then ['\\', '\\']
  else if c = '\x08' then ['\\', 'b']
  else if c = '\x09' then ['\\', 't']
  else if c = '\x0a' then ['\\', 'n']
  else if c = '\x0c' then ['\\', 'f']
  else if c = '\x0d' then ['\\', 'r']
  else if c.toNat < 32 then
    ['\\', 'u', '0', '0', Nat.digitChar (c.toNat / 16), Nat.digitChar (c.toNat % 16)]
  else [c]

/-- Escape a character sequence (the body of a JSON string literal). -/
def escStrL : List Char → List Char
  | [] => []
  | c :: cs => escChar c ++ escStrL cs

/-- A JSON string literal: opening quote, escaped body, closing quote. -/
def jsonStrLit (s : String) : List Char :=
  '"' :: (escStrL s.data ++ ['"'])

/-- Decimal digits of `n`, most significant first, with an explicit fuel
argument (structural recursion, mirroring core's `Nat.toDigitsCore`). -/
def natDecimalAux : Nat → Nat → List Char → List Char
  | 0, _, acc => acc
  | fuel + 1, n, acc =>
    if n < 10 then Nat.digitChar (n % 10) :: acc
    else natDecimalAux fuel (n / 10) (Nat.digitChar (n % 10) :: acc)

/-- Decimal representation of a natural number (what `JSON.stringify`
prints for the integer `ts` values produced by `Date.now()`). -/
def natDecimal (n : Nat) : List Char :=
  natDecimalAux (n + 1) n []

/-- Serialization of one `Source` object: `JSON.stringify` with the key
insertion order `id`, `title`, `url` of server.js line 251. -/
def encodeSource (s : Source) : List Char :=
  "\x7b\"id\":".data ++ natDecimal s.id
    ++ (",\"title\":".data ++ jsonStrLit s.title)
    ++ (",\"url\":".data ++ jsonStrLit s.url) ++ ['\x7d']

/-- Comma-separated concatenation (JSON array elements). -/
def joinComma : List (List Char) → List Char
  | [] => []
  | [x] => x
  | x :: y :: xs => x ++ (',' :: joinComma (y :: xs))

/-- Serialization of a message: `JSON.stringify({role, content, ts, ...extra})`
with the key insertion order of `pushMsg` (server.js line 78): `role`,
`content`, `ts`, then the spread `extra` (here the optional `sources`). -/
def encodeMsg (m : Msg) : String :=
  String.mk ("\x7b\"role\":".data ++ jsonStrLit m.role
    ++ (",\"content\":".data ++ jsonStrLit m.content)
    ++ (",\"ts\":".data ++ natDecimal m.ts)
    ++ (match m.sources with
        | none => []
        | some l => ",\"sources\":[".data ++ joinComma (l.map encodeSource) ++ [']'])
    ++ ['\x7d'])

/-! ## JSON parsing (`JSON.parse` on the stored message shape)

`getHistory` applies `JSON.parse` to each stored string.  The store only ever
contains strings produced by `pushMsg`, i.e. `JSON.stringify` of the
three-key object `{role, content, ts}` (every call site passes no `extra`).
The parser below is `JSON.parse` restricted to exactly that shape; it
implements the full JSON string-escape grammar (including `\/`, `\uXXXX`
with either case of hex digit) so that it is an honest inverse of the
encoder on arbitrary message contents. -/

/-- Value of a hex digit character, as in the JSON `\uXXXX` escape. -/
def hexVal (c : Char) : Option Nat :=
  if '0' ≤ c ∧ c ≤ '9' then some (c.toNat - 48)
  else if 'a' ≤ c ∧ c ≤ 'f' then some (c.toNat - 87)
  else if 'A' ≤ c ∧ c ≤ 'F' then some (c.toNat - 55)
  else none

/-- Parse the body of a JSON string literal (the opening quote already
consumed): returns the decoded characters and the input remaining after the
closing quote. -/
def parseJString : List Char → Option (List Char × List Char)
  | [] => none
  | c :: rest =>
    if c = '"' then some ([], rest)
    else if c = '\\' then
      match rest with
      | [] => none
      | e :: rest2 =>
        if e = '"' then (parseJString rest2).map (fun p => ('"' :: p.1, p.2))
        else if e = '\\' then (parseJString rest2).map (fun p => ('\\' :: p.1, p.2))
        else if e = '/' then (parseJString rest2).map (fun p => ('/' :: p.1, p.2))
        else if e = 'b' then (parseJString rest2).map (fun p => ('\x08' :: p.1, p.2))
        else if e = 't' then (parseJString rest2).map (fun p => ('\x09' :: p.1, p.2))
        else if e = 'n' then (parseJString rest2).map (fun p => ('\x0a' :: p.1, p.2))
        else if e = 'f' then (parseJString rest2).map (fun p => ('\x0c' :: p.1, p.2))
        else if e = 'r' then (parseJString rest2).map (fun p => ('\x0d' :: p.1, p.2))
        else if e = 'u' then
          match rest2 with
          | d1 :: d2 :: d3 :: d4 :: rest3 =>
            match hexVal d1, hexVal d2, hexVal d3, hexVal d4 with
            | some a, some b, some c2, some d =>
              (parseJString rest3).map
                (fun p => (Char.ofNat (((a * 16 + b) * 16 + c2) * 16 + d) :: p.1, p.2))
            | _, _, _, _ => none
          | _ => none
        else none
    else (parseJString rest).map (fun p => (c :: p.1, p.2))

/-- Consume a maximal run of decimal digits, accumulating their value. -/
def parseDigits : List Char → Nat → Nat × List Char
  | [], acc => (acc, [])
  | c :: rest, acc =>
    if c.isDigit then parseDigits rest (acc * 10 + (c.toNat - 48))
    else (acc, c :: rest)

/-- Parse a JSON natural number (at least one leading digit required). -/
def parseNat : List Char → Option (Nat × List Char)
  | [] => none
  | c :: rest =>
    if c.isDigit then some (parseDigits (c :: rest) 0)
    else none

/-- Strip an expected literal prefix, returning the remainder. -/
def stripL : List Char → List Char → Option (List Char)
  | [], l => some l
  | _ :: _, [] => none
  | c :: pre, c' :: l => if c = c' then stripL pre l else none

/-- Parse of `JSON.parse` on a serialized message of the shape `pushMsg`
writes: `{"role":<string>,"content":<string>,"ts":<number>}`. -/
def parseMsg (s : String) : Option Msg :=
  match stripL "\x7b\"role\":".data s.data with
  | none => none
  | some ('"' :: l1) =>
    (match parseJString l1 with
     | none => none
     | some (role, l2) =>
       match stripL ",\"content\":".data l2 with
       | none => none
       | some ('"' :: l3) =>
         (match parseJString l3 with
          | none => none
          | some (content, l4) =>
            match stripL ",\"ts\":".data l4 with
            | none => none
            | some l5 =>
              match parseNat l5 with
              | none => none
              | some (ts, l6) =>
                match l6 with
                | ['\x7d'] => some ⟨String.mk role, String.mk content, ts, none⟩
                | _ => none)
       | some _ => none)
  | some _ => none

/-! ## The in-memory store fallback (server.js lines 54-71)

When neither Upstash nor a Redis URL is configured, the server uses a
`Map`-backed store.  The `Map` is modelled as an association list from key to
the stored list of strings. -/

/-- The in-memory store's state: JavaScript `Map` from key to array of
stored strings (`const mem = new Map()`). -/
def Store := List (String × List String)

/-- `mem.get(k)` (as used by `rpush`/`lrange`: absent key reads as `[]`). -/
def storeGet (st : Store) (k : String) : Option (List String) :=
  match st with
  | [] => none
  | (k', v) :: rest => if k' = k then some v else storeGet rest k

/-- `mem.set(k, v)`: overwrite the binding for `k` (insert if absent). -/
def storeSet (st : Store) (k : String) (v : List String) : Store :=
  match st with
  | [] => [(k, v)]
  | (k', v') :: rest => if k' = k then (k, v) :: rest else (k', v') :: storeSet rest k v

/-- In-memory `rpush` (server.js lines 57-60): read the array (default
`[]`), push the value, store it back. -/
def memRpush (st : Store) (k v : String) : Store :=
  storeSet st k ((storeGet st k).getD [] ++ [v])

/-- In-memory `lrange` (server.js lines 61-65):
`const end = e === -1 ? arr.length : e + 1; return arr.slice(s, end)`
(modelling `Array.prototype.slice` on the in-range, non-negative indices the
helpers use). -/
def memLrange (st : Store) (k : String) (s e : Int) : List String :=
  let arr := (storeGet st k).getD []
  let en : Nat := if e = -1 then arr.length else (e + 1).toNat
  (arr.take en).drop s.toNat

/-- In-memory `del` (server.js line 67): `mem.delete(k)`. -/
def memDel (st : Store) (k : String) : Store :=
  match st with
  | [] => []
  | (k', v) :: rest => if k' = k then memDel rest k else (k', v) :: memDel rest k

/-- The empty store (`new Map()` at process start). -/
def emptyStore : Store := []

/-! ## Chat history helpers (server.js lines 73-90) -/

/-- Session log key (server.js line 74): `` `session:${id}:messages` ``. -/
def sessionKey (id : String) : String :=
  "session:" ++ id ++ ":messages"

/-- TTL constant (server.js line 75): 7 days in seconds. -/
def TTL_SECONDS : Nat := 60 * 60 * 24 * 7

/-- `pushMsg` (server.js lines 77-81) under the in-memory backend:
serialize the message, `rpush` it onto the session log, then `expire` the
key (a no-op for the in-memory backend, which ignores TTLs). -/
def pushMsg (st : Store) (id : String) (m : Msg) : Store :=
  memRpush st (sessionKey id) (encodeMsg m)

/-- `getHistory` (server.js lines 83-86) under the in-memory backend:
`lrange(key, 0, -1)` then `JSON.parse` of each stored string (the stored
values are always strings there). -/
def getHistory (st : Store) (id : String) : List (Option Msg) :=
  (memLrange st (sessionKey id) 0 (-1)).map parseMsg

/-- `resetSession` (server.js lines 88-90) under the in-memory backend. -/
def resetSession (st : Store) (id : String) : Store :=
  memDel st (sessionKey id)

/-! ## The Gemini client with retry (server.js lines 139-158)

`askGeminiRaw` is an external HTTP call; one invocation either returns a text
or throws an axios error.  An execution of `askGemini` is determined by the
outcome of each attempt, modelled as an oracle `raw : Nat → Except GemErr
String` (attempt index ↦ outcome), and by the jitter drawn before each sleep,
modelled as `jitter : Nat → Nat` (retry index ↦ `Math.floor(Math.random() *
250)`, a value in `[0, 250)`).  The model returns the final outcome together
with the number of attempts made and the list of sleep durations, so the
retry policy is fully observable. -/

/-- The data `askGemini` reads off a thrown error:
`err?.response?.status` and `err?.response?.data?.error?.code`
(`none` models an absent field or a non-number value, which compares unequal
under JavaScript's `===`). -/
structure GemErr where
  status : Option Nat
  code : Option Nat
deriving DecidableEq

/-- The retry guard of server.js line 147:
`status === 429 || status === 503 || code === 429 || code === 503`. -/
def retryable (e : GemErr) : Bool :=
  e.status = some 429 || e.status = some 503 || e.code = some 429 || e.code = some 503

/-- How a run of `askGemini` ends: a returned text, a rethrown attempt
error (`throw err`, line 154), or the trailing `throw new
Error('llm_unavailable')` (line 157). -/
inductive GemOutcome where
  | ok (text : String)
  | err (e : GemErr)
  | unavailable
deriving DecidableEq

/-- Observable trace of one `askGemini` run: final outcome, number of
`askGeminiRaw` attempts made, and the back-off sleeps performed (each
`delay + Math.floor(Math.random()*250)`, in order). -/
structure GemRun where
  outcome : GemOutcome
  attempts : Nat
  sleeps : List Nat
deriving DecidableEq

/-- The loop of `askGemini`: `remaining` iterations left, `i` the current
loop index, `delay` the current back-off base.  Mirrors
`for (let i = 0; i < LLM_RETRIES; i++)` with
`if (status === 429 || ...) { if (i < LLM_RETRIES - 1) { await sleep(delay +
jitter); delay *= 2; continue } } throw err`.
(For `total ≥ 1`, `i < total - 1` on JS numbers coincides with
`i + 1 < total` on `Nat`.) -/
def askGeminiAux (raw : Nat → Except GemErr String) (jitter : Nat → Nat) (total : Nat) :
    Nat → Nat → Nat → GemRun
  | 0, _, _ => ⟨.unavailable, 0, []⟩
  | remaining + 1, i, delay =>
    match raw i with
    | .ok t => ⟨.ok t, 1, []⟩
    | .error e =>
      if retryable e ∧ i + 1 < total then
        let rest := askGeminiAux raw jitter total remaining (i + 1) (delay * 2)
        ⟨rest.outcome, rest.attempts + 1, (delay + jitter i) :: rest.sleeps⟩
      else ⟨.err e, 1, []⟩

/-- `askGemini(prompt)` (server.js lines 139-158): run the retry loop with
`LLM_RETRIES` iterations starting from `delay = LLM_RETRY_MS`. -/
def askGemini (raw : Nat → Except GemErr String) (jitter : Nat → Nat)
    (LLM_RETRIES LLM_RETRY_MS : Nat) : GemRun :=
  askGeminiAux raw jitter LLM_RETRIES LLM_RETRIES 0 LLM_RETRY_MS

/-! ## Prompt builder and fallback (server.js lines 160-178) -/

/-- One rendered context block (server.js line 162):
`` `# Source ${i + 1} (${p.title})\n${p.chunk}\nURL: ${p.url}` ``. -/
def ctxBlock (i : Nat) (p : Passage) : String :=
  "# Source " ++ toString (i + 1) ++ " (" ++ p.title ++ ")\n" ++ p.chunk ++ "\nURL: " ++ p.url

/-- The rendered context blocks of a prompt, in passage order. -/
def promptBlocks (passages : List Passage) : List String :=
  enumMap ctxBlock 0 passages

/-- `buildPrompt` (server.js lines 160-172). -/
def buildPrompt (query : String) (passages : List Passage) : String :=
  let ctx := joinSep "\n\n" (promptBlocks passages)
  "You are a news assistant. Use ONLY the context below. If the answer is unknown, say you are unsure.\n\n## Context\n"
    ++ ctx
    ++ "\n\n## Task\nQuestion: " ++ query
    ++ "\nAnswer clearly with citations like [S1], [S2] referring to the numbered sources."

/-- One fallback bullet line (server.js line 176):
`` `• [S${i + 1}] ${p.title}` ``. -/
def bulletLine (i : Nat) (p : Passage) : String :=
  "• [S" ++ toString (i + 1) ++ "] " ++ p.title

/-- The fixed notice prefix of the fallback answer (the part of the template
literal before the source list). -/
def busyNotice (query : String) : String :=
  "The model is busy right now. Here are relevant sources for “" ++ query ++ "”:\n\n"

/-- `busyFallback` (server.js lines 175-178):
`passages.slice(0, 5).map((p, i) => ...).join('\n')` under the notice. -/
def busyFallback (query : String) (passages : List Passage) : String :=
  busyNotice query ++ joinSep "\n" (enumMap bulletLine 0 (passages.take 5))

/-- The canned answer substituted for an empty model response
(server.js line 245). -/
def cannedUnsure : String :=
  "I am unsure. None of the provided text answers that."

/-- The response sources (server.js line 251):
`passages.map((p, i) => ({ id: i + 1, title: p.title, url: p.url }))`. -/
def sourcesOf (passages : List Passage) : List Source :=
  enumMap (fun i p => ⟨i + 1, p.title, p.url⟩) 0 passages

/-! ## The `POST /api/chat` handler (server.js lines 229-259) -/

/-- The handler's HTTP response: `ok` is `res.json({answer, sources})`
(status 200); `badRequest` is `res.status(400).json({error})`;
`serverError` is `res.status(500).json({error, ...})` (the `chat_failed`
body also carries a `detail` field with the exception message, elided
here). -/
inductive ChatResp where
  | ok (answer : String) (sources : List Source)
  | badRequest (error : String)
  | serverError (error : String)
deriving DecidableEq

/-- Environment of one request: the outcome of each external call.
`pushUserOk` / `pushAssistantOk` say whether the two `pushMsg` awaits
succeed (a `false` models the store backend throwing, in which case no
append happens); `retrieval` is `qdrantSearch`'s outcome; `raw prompt i` is
the outcome of the `i`-th `askGeminiRaw(prompt)` attempt; `jitter` the drawn
jitters; `tsUser` / `tsAssistant` the two `Date.now()` readings. -/
structure ChatEnv where
  pushUserOk : Bool
  pushAssistantOk : Bool
  retrieval : Except String (List Passage)
  raw : String → Nat → Except GemErr String
  jitter : Nat → Nat
  LLM_RETRIES : Nat
  LLM_RETRY_MS : Nat
  tsUser : Nat
  tsAssistant : Nat

/-- Result of one request: the HTTP response, the store after the request,
and the trace of messages appended (session id together with the message),
in order. -/
structure ChatResult where
  resp : ChatResp
  store : Store
  pushed : List (String × Msg)

/-- JavaScript truthiness test `!x` on a possibly-absent string field
(`undefined` and the empty string are the falsy cases here). -/
def jsFalsy : Option String → Bool
  | none => true
  | some s => s = ""

/-- The white-space class of JavaScript's `String.prototype.trim` (ASCII
part; the astral/Unicode space code points never arise in this model). -/
def jsWhitespace (c : Char) : Bool :=
  c = ' ' || c = '\t' || c = '\n' || c = '\r' || c = '\x0b' || c = '\x0c'

/-- JavaScript's `raw.trim()`: strip leading and trailing whitespace. -/
def jsTrim (s : String) : String :=
  String.mk (((s.data.dropWhile jsWhitespace).reverse.dropWhile jsWhitespace).reverse)

/-- The answer selection of server.js lines 242-249: on a successful
`askGemini`, `raw?.trim() || canned`; on a thrown error (rethrown attempt
error or `llm_unavailable`), the catch substitutes `busyFallback`. -/
def answerOf (run : GemRun) (message : String) (passages : List Passage) : String :=
  match run.outcome with
  | .ok raw => if jsTrim raw = "" then cannedUnsure else jsTrim raw
  | .err _ => busyFallback message passages
  | .unavailable => busyFallback message passages

/-- The `POST /api/chat` handler (server.js lines 229-259) under the
in-memory store backend.  The whole body runs inside one `try`; any store or
retrieval failure reaches the outer catch, which responds
500 `chat_failed`. -/
def chatHandler (env : ChatEnv) (st : Store) (sessionId message : Option String) :
    ChatResult :=
  if jsFalsy sessionId || jsFalsy message then
    ⟨.badRequest "sessionId & message required", st, []⟩
  else
    let sid := sessionId.getD ""
    let msg := message.getD ""
    if env.pushUserOk then
      let userMsg : Msg := ⟨"user", msg, env.tsUser, none⟩
      let st1 := pushMsg st sid userMsg
      match env.retrieval with
      | .error _ => ⟨.serverError "chat_failed", st1, [(sid, userMsg)]⟩
      | .ok passages =>
        let prompt := buildPrompt msg passages
        let run := askGemini (env.raw prompt) env.jitter env.LLM_RETRIES env.LLM_RETRY_MS
        let answer := answerOf run msg passages
        let sources := sourcesOf passages
        if env.pushAssistantOk then
          let asstMsg : Msg := ⟨"assistant", answer, env.tsAssistant, none⟩
          let st2 := pushMsg st1 sid asstMsg
          ⟨.ok answer sources, st2, [(sid, userMsg), (sid, asstMsg)]⟩
        else ⟨.serverError "chat_failed", st1, [(sid, userMsg)]⟩
    else ⟨.serverError "chat_failed", st, []⟩

/-! ## Lemmas about the retry loop -/

/-- Step lemma: a successful attempt returns its text at once. -/
theorem askGeminiAux_ok {raw : Nat → Except GemErr String} {jitter : Nat → Nat}
    {total r i d : Nat} {t : String} (hri : raw i = .ok t) :
    askGeminiAux raw jitter total (r + 1) i d = ⟨.ok t, 1, []⟩ := by
  simp [askGeminiAux, hri]

/-- Step lemma: a retryable failure with budget remaining sleeps and
continues with the doubled delay. -/
theorem askGeminiAux_retry {raw : Nat → Except GemErr String} {jitter : Nat → Nat}
    {total r i d : Nat} {e : GemErr} (hri : raw i = .error e)
    (hc : retryable e = true ∧ i + 1 < total) :
    askGeminiAux raw jitter total (r + 1) i d =
      ⟨(askGeminiAux raw jitter total r (i + 1) (d * 2)).outcome,
       (askGeminiAux raw jitter total r (i + 1) (d * 2)).attempts + 1,
       (d + jitter i) :: (askGeminiAux raw jitter total r (i + 1) (d * 2)).sleeps⟩ := by
  simp [askGeminiAux, hri, hc]

/-- Step lemma: any other failure is rethrown at once. -/
theorem askGeminiAux_throw {raw : Nat → Except GemErr String} {jitter : Nat → Nat}
    {total r i d : Nat} {e : GemErr} (hri : raw i = .error e)
    (hc : ¬(retryable e = true ∧ i + 1 < total)) :
    askGeminiAux raw jitter total (r + 1) i d = ⟨.err e, 1, []⟩ := by
  simp only [askGeminiAux, hri]
  rw [if_neg hc]

/-- Any run of the loop body (at least one iteration left) makes at least
one attempt. -/
theorem askGeminiAux_attempts_pos (raw : Nat → Except GemErr String) (jitter : Nat → Nat)
    (total : Nat) : ∀ r i d, 1 ≤ r → 1 ≤ (askGeminiAux raw jitter total r i d).attempts := by
  intro r i d hr
  match r, hr with
  | r' + 1, _ =>
    cases hri : raw i with
    | ok t => rw [askGeminiAux_ok hri]
    | error e =>
      by_cases hc : retryable e = true ∧ i + 1 < total
      · rw [askGeminiAux_retry hri hc]; simp
      · rw [askGeminiAux_throw hri hc]

/-- Closed form of the loop when every attempt fails with a retryable
error: it runs all remaining iterations, sleeping `delay * 2 ^ k + jitter`
before each retry, and rethrows the last error. -/
theorem askGeminiAux_all_retryable (raw : Nat → Except GemErr String) (jitter : Nat → Nat)
    (total : Nat) (e : GemErr) (hraw : ∀ i, raw i = .error e) (hre : retryable e = true) :
    ∀ r i d, i + r = total → 1 ≤ r →
      askGeminiAux raw jitter total r i d =
        ⟨.err e, r, (List.range (r - 1)).map (fun k => d * 2 ^ k + jitter (i + k))⟩ := by
  intro r
  induction r with
  | zero => intro i d _ h; omega
  | succ r' ih =>
    intro i d htot _
    by_cases hlt : i + 1 < total
    · have hr' : 1 ≤ r' := by omega
      rw [askGeminiAux_retry (hraw i) ⟨hre, hlt⟩, ih (i + 1) (d * 2) (by omega) hr']
      have hr'' : r' - 1 + 1 = r' := by omega
      have hrange : List.range r' = 0 :: (List.range (r' - 1)).map (· + 1) := by
        conv_lhs => rw [← hr'']
        exact List.range_succ_eq_map (r' - 1)
      simp only [GemRun.mk.injEq, true_and]
      rw [show r' + 1 - 1 = r' from rfl, hrange]
      simp only [List.map_cons, List.map_map, pow_zero, mul_one, Nat.add_zero]
      congr 1
      apply List.map_congr_left
      intro k _
      simp only [Function.comp_apply]
      have h1 : i + 1 + k = i + (k + 1) := by omega
      rw [h1, pow_succ]
      ring
    · rw [askGeminiAux_throw (hraw i) (by tauto)]
      have : r' = 0 := by omega
      subst this
      rfl

/-- If no attempt ever succeeds, the loop never produces an `ok` outcome. -/
theorem askGeminiAux_no_ok (raw : Nat → Except GemErr String) (jitter : Nat → Nat)
    (total : Nat) (hraw : ∀ i, ∃ e, raw i = .error e) :
    ∀ r i d t, (askGeminiAux raw jitter total r i d).outcome ≠ GemOutcome.ok t := by
  intro r
  induction r with
  | zero => intro i d t; simp [askGeminiAux]
  | succ r' ih =>
    intro i d t
    obtain ⟨e, he⟩ := hraw i
    by_cases hc : retryable e = true ∧ i + 1 < total
    · rw [askGeminiAux_retry he hc]; exact ih (i + 1) (d * 2) t
    · rw [askGeminiAux_throw he hc]; simp

/-- With at least one iteration left, the loop body either returns or
throws an attempt error; it never falls through to the `unavailable`
sentinel. -/
theorem askGeminiAux_ne_unavailable (raw : Nat → Except GemErr String) (jitter : Nat → Nat)
    (total : Nat) : ∀ r i d, i + r = total → 1 ≤ r →
      (askGeminiAux raw jitter total r i d).outcome ≠ GemOutcome.unavailable := by
  intro r
  induction r with
  | zero => intro i d _ h; omega
  | succ r' ih =>
    intro i d htot _
    cases hri : raw i with
    | ok t => rw [askGeminiAux_ok hri]; simp
    | error e =>
      by_cases hc : retryable e = true ∧ i + 1 < total
      · rw [askGeminiAux_retry hri hc]
        have hr' : 1 ≤ r' := by omega
        exact ih (i + 1) (d * 2) (by omega) hr'
      · rw [askGeminiAux_throw hri hc]; simp

/-- Behavior of the loop at the first attempt whose outcome is `e`, after
`i` earlier attempts that all failed retryably: a retry happens exactly when
`e` is retryable and budget remains; otherwise `e` is rethrown at once with
no further sleep. -/
theorem askGeminiAux_guard (raw : Nat → Except GemErr String) (jitter : Nat → Nat)
    (total : Nat) :
    ∀ i r i0 d, i0 + r = total → i < r →
      (∀ j, j < i → ∃ ej, raw (i0 + j) = .error ej ∧ retryable ej = true) →
      ∀ e, raw (i0 + i) = .error e →
      ((retryable e = true ∧ i0 + i + 1 < total) →
        i + 1 < (askGeminiAux raw jitter total r i0 d).attempts) ∧
      (¬(retryable e = true ∧ i0 + i + 1 < total) →
        (askGeminiAux raw jitter total r i0 d).outcome = GemOutcome.err e ∧
        (askGeminiAux raw jitter total r i0 d).attempts = i + 1 ∧
        (askGeminiAux raw jitter total r i0 d).sleeps.length = i) := by
  intro i
  induction i with
  | zero =>
    intro r i0 d htot hlt _ e he
    match r, hlt with
    | r' + 1, _ =>
      rw [show i0 + 0 = i0 from rfl] at he
      constructor
      · intro hc
        have hc' : retryable e = true ∧ i0 + 1 < total := ⟨hc.1, by omega⟩
        rw [askGeminiAux_retry he hc']
        dsimp only
        have hr' : 1 ≤ r' := by omega
        have hp := askGeminiAux_attempts_pos raw jitter total r' (i0 + 1) (d * 2) hr'
        omega
      · intro hc
        have hc' : ¬(retryable e = true ∧ i0 + 1 < total) := by
          intro hcc
          exact hc ⟨hcc.1, by omega⟩
        rw [askGeminiAux_throw he hc']
        exact ⟨rfl, rfl, rfl⟩
  | succ k ih =>
    intro r i0 d htot hlt hprev e he
    match r, hlt with
    | r' + 1, _ =>
      obtain ⟨e0, he0, hre0⟩ := hprev 0 (by omega)
      rw [show i0 + 0 = i0 from rfl] at he0
      have hbudget : i0 + 1 < total := by omega
      rw [askGeminiAux_retry he0 ⟨hre0, hbudget⟩]
      dsimp only
      have hprev' : ∀ j, j < k → ∃ ej, raw (i0 + 1 + j) = .error ej ∧ retryable ej = true := by
        intro j hj
        obtain ⟨ej, hej, hrej⟩ := hprev (j + 1) (by omega)
        refine ⟨ej, ?_, hrej⟩
        rw [show i0 + 1 + j = i0 + (j + 1) by omega]
        exact hej
      have he' : raw (i0 + 1 + k) = .error e := by
        rw [show i0 + 1 + k = i0 + (k + 1) by omega]
        exact he
      have hk : k < r' := by omega
      obtain ⟨ih1, ih2⟩ := ih r' (i0 + 1) (d * 2) (by omega) hk hprev' e he'
      constructor
      · intro hc
        have hcc : retryable e = true ∧ i0 + 1 + k + 1 < total := ⟨hc.1, by omega⟩
        have := ih1 hcc
        omega
      · intro hc
        have hc' : ¬(retryable e = true ∧ i0 + 1 + k + 1 < total) := by
          intro hcc
          exact hc ⟨hcc.1, by omega⟩
        obtain ⟨h1, h2, h3⟩ := ih2 hc'
        refine ⟨h1, by omega, ?_⟩
        simp only [List.length_cons]
        omega

/-- Claim C3: if the generation provider fails with HTTP status 429 on every
call, `askGemini` makes exactly `LLM_RETRIES` attempts (no more, no fewer)
before failing; the wait before the `k`-th retry is
`LLM_RETRY_MS * 2 ^ k + jitter` (so the delay doubles on each subsequent
retry and, as the jitter is non-negative, the first wait is at least
`LLM_RETRY_MS`). -/
theorem askGemini_attempts_on_persistent_429 (raw : Nat → Except GemErr String)
    (jitter : Nat → Nat) (retries ms : Nat) (e : GemErr)
    (hraw : ∀ i, raw i = .error e) (hstatus : e.status = some 429) (hr : 1 ≤ retries) :
    (askGemini raw jitter retries ms).attempts = retries ∧
    (askGemini raw jitter retries ms).outcome = GemOutcome.err e ∧
    (askGemini raw jitter retries ms).sleeps.length = retries - 1 ∧
    (∀ k, k < retries - 1 →
      (askGemini raw jitter retries ms).sleeps.get? k = some (ms * 2 ^ k + jitter k)) ∧
    (∀ w, (askGemini raw jitter retries ms).sleeps.get? 0 = some w → ms ≤ w) := by
  have hre : retryable e = true := by simp [retryable, hstatus]
  have hall := askGeminiAux_all_retryable raw jitter retries e hraw hre retries 0 ms
    (by omega) hr
  rw [askGemini, hall]
  refine ⟨rfl, rfl, by simp, ?_, ?_⟩
  · intro k hk
    rw [List.get?_map, List.get?_range hk]
    simp
  · intro w hw
    rcases Nat.eq_zero_or_pos (retries - 1) with h0 | h0
    · rw [h0] at hw
      simp at hw
    · rw [List.get?_map, List.get?_range h0] at hw
      simp only [Option.map_some', Option.some.injEq] at hw
      subst hw
      simp

/-- Claim C3 witness: a provider that always answers 429, with
`LLM_RETRIES = 3` and `LLM_RETRY_MS = 800`. -/
theorem askGemini_attempts_on_persistent_429_witness :
    (askGemini (fun _ => Except.error ⟨some 429, none⟩) (fun i => 100 * i) 3 800).attempts = 3 ∧
    (askGemini (fun _ => Except.error ⟨some 429, none⟩) (fun i => 100 * i) 3 800).outcome
      = GemOutcome.err ⟨some 429, none⟩ ∧
    (askGemini (fun _ => Except.error ⟨some 429, none⟩) (fun i => 100 * i) 3 800).sleeps.length
      = 3 - 1 :=
  have h := askGemini_attempts_on_persistent_429 (fun _ => Except.error ⟨some 429, none⟩)
    (fun i => 100 * i) 3 800 ⟨some 429, none⟩ (fun _ => rfl) rfl (by decide)
  ⟨h.1, h.2.1, h.2.2.1⟩

/-- Claim C4 counterexample: with `LLM_RETRIES = 3` and every attempt
failing with HTTP status 429 (a failure of the claimed retryable class,
`retryable = true`), the third failed call is **not** retried — the run
stops at 3 attempts with only 2 back-off sleeps.  This refutes "retries a
failed generation call if and only if the failure carries HTTP status 429
or 503 ...": the reverse implication fails on the last attempt. -/
theorem askGemini_retry_iff_counterexample :
    retryable ⟨some 429, none⟩ = true ∧
    (askGemini (fun _ => Except.error ⟨some 429, none⟩) (fun _ => 0) 3 800).attempts = 3 ∧
    (askGemini (fun _ => Except.error ⟨some 429, none⟩) (fun _ => 0) 3 800).sleeps.length = 2 := by
  decide

/-- Claim C4 (amended): `askGemini` retries a failed attempt if and only if
the failure carries HTTP status 429 or 503 (or such a code in the error
payload) **and** the attempt is not the last one of the budget
(`i + 1 < LLM_RETRIES`); any other failure is propagated to the caller
immediately — the run ends with that error after exactly `i + 1` attempts
and no further back-off sleep. -/
theorem askGemini_retries_iff_retryable_and_budget (raw : Nat → Except GemErr String)
    (jitter : Nat → Nat) (retries ms i : Nat) (e : GemErr)
    (hprev : ∀ j, j < i → ∃ ej, raw j = .error ej ∧ retryable ej = true)
    (hi : i < retries) (he : raw i = .error e) :
    ((retryable e = true ∧ i + 1 < retries) →
      i + 1 < (askGemini raw jitter retries ms).attempts) ∧
    (¬(retryable e = true ∧ i + 1 < retries) →
      (askGemini raw jitter retries ms).outcome = GemOutcome.err e ∧
      (askGemini raw jitter retries ms).attempts = i + 1 ∧
      (askGemini raw jitter retries ms).sleeps.length = i) := by
  obtain ⟨h1, h2⟩ := askGeminiAux_guard raw jitter retries i retries 0 ms (by omega) hi
    (fun j hj => by simpa using hprev j hj) e (by simpa using he)
  rw [askGemini]
  exact ⟨fun hc => by simpa using h1 (by simpa using hc),
         fun hc => by simpa using h2 (by simpa using hc)⟩

/-- Claim C4 witness: first attempt fails 429 (retried), second attempt
fails with HTTP 500 — a non-retryable failure, propagated at once: the run
ends with that error after exactly 2 attempts and a single sleep (the one
that preceded attempt 2). -/
theorem askGemini_retries_iff_retryable_and_budget_witness :
    (1 : Nat) < 3 ∧
    (askGemini
        (fun j => if j = 0 then Except.error ⟨some 429, none⟩ else Except.error ⟨some 500, none⟩)
        (fun _ => 0) 3 800).outcome = GemOutcome.err ⟨some 500, none⟩ ∧
    (askGemini
        (fun j => if j = 0 then Except.error ⟨some 429, none⟩ else Except.error ⟨some 500, none⟩)
        (fun _ => 0) 3 800).attempts = 2 ∧
    (askGemini
        (fun j => if j = 0 then Except.error ⟨some 429, none⟩ else Except.error ⟨some 500, none⟩)
        (fun _ => 0) 3 800).sleeps.length = 1 :=
  have h := askGemini_retries_iff_retryable_and_budget
    (fun j => if j = 0 then Except.error ⟨some 429, none⟩ else Except.error ⟨some 500, none⟩)
    (fun _ => 0) 3 800 1 ⟨some 500, none⟩
    (fun j hj => by
      have hj0 : j = 0 := by omega
      subst hj0
      exact ⟨⟨some 429, none⟩, rfl, by decide⟩)
    (by decide) rfl
  have h2 := h.2 (by decide)
  ⟨by decide, h2.1, h2.2.1, h2.2.2⟩

/-- Claim C10: when `LLM_RETRIES ≥ 1`, the trailing
`throw new Error('llm_unavailable')` after the retry loop is unreachable:
every loop iteration either returns the model's text or throws, so the run
never ends with the `unavailable` sentinel. -/
theorem askGemini_trailing_throw_unreachable (raw : Nat → Except GemErr String)
    (jitter : Nat → Nat) (retries ms : Nat) (hr : 1 ≤ retries) :
    (askGemini raw jitter retries ms).outcome ≠ GemOutcome.unavailable := by
  rw [askGemini]
  exact askGeminiAux_ne_unavailable raw jitter retries retries 0 ms (by omega) hr

/-- Claim C10 witness: the default configuration `LLM_RETRIES = 3`. -/
theorem askGemini_trailing_throw_unreachable_witness :
    (1 : Nat) ≤ 3 ∧
    (askGemini (fun _ => Except.ok "hi") (fun _ => 0) 3 800).outcome
      ≠ GemOutcome.unavailable :=
  ⟨by decide, askGemini_trailing_throw_unreachable (fun _ => Except.ok "hi") (fun _ => 0) 3 800
    (by decide)⟩

/-! ## Round trip of the message serialization -/

/-- Rebuilding a string from its character data is the identity. -/
theorem mk_data_eq (s : String) : String.mk s.data = s := by
  cases s
  rfl

/-- Stripping a literal prefix off itself succeeds. -/
theorem stripL_append : ∀ (pre rest : List Char), stripL pre (pre ++ rest) = some rest := by
  intro pre
  induction pre with
  | nil => intro rest; rfl
  | cons c pre' ih => intro rest; simp [stripL, ih]

/-- `Nat.digitChar` of a value below 10 is a decimal digit character. -/
theorem digitChar_isDigit (n : Nat) (h : n < 10) : (Nat.digitChar n).isDigit = true := by
  interval_cases n <;> decide

/-- Numeric value of a decimal digit character produced by `Nat.digitChar`. -/
theorem digitChar_toNat_sub (n : Nat) (h : n < 10) : (Nat.digitChar n).toNat - 48 = n := by
  interval_cases n <;> decide

/-- `hexVal` inverts `Nat.digitChar` on hex digits. -/
theorem hexVal_digitChar (n : Nat) (h : n < 16) : hexVal (Nat.digitChar n) = some n := by
  interval_cases n <;> decide

/-- Unfolding `parseJString` on a character that is neither a quote nor a
backslash. -/
theorem parseJString_other {c : Char} (h1 : ¬c = '"') (h2 : ¬c = '\\') (l : List Char) :
    parseJString (c :: l) = (parseJString l).map (fun p => (c :: p.1, p.2)) := by
  rw [parseJString.eq_def]
  simp only [if_neg h1, if_neg h2]

/-- The JSON string parser inverts the `JSON.stringify` escaping: parsing
the escaped body followed by a closing quote recovers the original
characters and the remaining input. -/
theorem parseJString_escStrL : ∀ (s t : List Char), parseJString (escStrL s ++ '"' :: t) = some (s, t) := by
  intro s
  induction s with
  | nil =>
    intro t
    rw [show escStrL [] = [] from rfl, List.nil_append, parseJString.eq_def]
    simp
  | cons c cs ih =>
    intro t
    rw [show escStrL (c :: cs) = escChar c ++ escStrL cs from rfl]
    by_cases h1 : c = '"'
    · subst h1
      rw [show escChar '"' = ['\\', '"'] from rfl]
      simp only [List.cons_append, List.nil_append]
      rw [parseJString.eq_def]
      simp [ih]
    · by_cases h2 : c = '\\'
      · subst h2
        rw [show escChar '\\' = ['\\', '\\'] from rfl]
        simp only [List.cons_append, List.nil_append]
        rw [parseJString.eq_def]
        simp [ih]
      · by_cases h3 : c = '\x08'
        · subst h3
          rw [show escChar '\x08' = ['\\', 'b'] from rfl]
          simp only [List.cons_append, List.nil_append]
          rw [parseJString.eq_def]
          simp [ih]
        · by_cases h4 : c = '\x09'
          · subst h4
            rw [show escChar '\x09' = ['\\', 't'] from rfl]
            simp only [List.cons_append, List.nil_append]
            rw [parseJString.eq_def]
            simp [ih]
          · by_cases h5 : c = '\x0a'
            · subst h5
              rw [show escChar '\x0a' = ['\\', 'n'] from rfl]
              simp only [List.cons_append, List.nil_append]
              rw [parseJString.eq_def]
              simp [ih]
            · by_cases h6 : c = '\x0c'
              · subst h6
                rw [show escChar '\x0c' = ['\\', 'f'] from rfl]
                simp only [List.cons_append, List.nil_append]
                rw [parseJString.eq_def]
                simp [ih]
              · by_cases h7 : c = '\x0d'
                · subst h7
                  rw [show escChar '\x0d' = ['\\', 'r'] from rfl]
                  simp only [List.cons_append, List.nil_append]
                  rw [parseJString.eq_def]
                  simp [ih]
                · by_cases h8 : c.toNat < 32
                  · have hesc : escChar c =
                        ['\\', 'u', '0', '0', Nat.digitChar (c.toNat / 16),
                          Nat.digitChar (c.toNat % 16)] := by
                      simp [escChar, h1, h2, h3, h4, h5, h6, h7, h8]
                    rw [hesc]
                    simp only [List.cons_append, List.nil_append]
                    rw [parseJString.eq_def]
                    have e1 : hexVal '0' = some 0 := by decide
                    have e2 : hexVal (Nat.digitChar (c.toNat / 16)) = some (c.toNat / 16) :=
                      hexVal_digitChar _ (by omega)
                    have e3 : hexVal (Nat.digitChar (c.toNat % 16)) = some (c.toNat % 16) :=
                      hexVal_digitChar _ (by omega)
                    have e4 : c.toNat / 16 * 16 + c.toNat % 16 = c.toNat := by
                      omega
                    simp [e1, e2, e3, ih]
                    rw [e4, Char.ofNat_toNat]
                  · have hesc : escChar c = [c] := by
                      simp [escChar, h1, h2, h3, h4, h5, h6, h7, h8]
                    rw [hesc]
                    simp only [List.cons_append, List.nil_append]
                    rw [parseJString_other h1 h2]
                    simp [ih]

/-- `natDecimalAux` builds onto its accumulator by prepending the digits. -/
theorem natDecimalAux_acc : ∀ (fuel n : Nat) (acc : List Char),
    natDecimalAux fuel n acc = natDecimalAux fuel n [] ++ acc := by
  intro fuel
  induction fuel with
  | zero => intro n acc; rfl
  | succ f ih =>
    intro n acc
    by_cases h : n < 10
    · simp [natDecimalAux, h]
    · simp only [natDecimalAux, if_neg h]
      rw [ih (n / 10) (Nat.digitChar (n % 10) :: acc), ih (n / 10) [Nat.digitChar (n % 10)]]
      simp

/-- The decimal representation is non-empty and starts with a digit. -/
theorem natDecimalAux_head : ∀ (fuel n : Nat), n < fuel →
    ∃ d l, natDecimalAux fuel n [] = d :: l ∧ d.isDigit = true := by
  intro fuel
  induction fuel with
  | zero => intro n h; omega
  | succ f ih =>
    intro n hn
    by_cases h : n < 10
    · exact ⟨Nat.digitChar (n % 10), [], by simp [natDecimalAux, h],
        digitChar_isDigit _ (by omega)⟩
    · have hdiv : n / 10 < f := by omega
      obtain ⟨d, l, hd, hdig⟩ := ih (n / 10) hdiv
      refine ⟨d, l ++ [Nat.digitChar (n % 10)], ?_, hdig⟩
      simp only [natDecimalAux, if_neg h]
      rw [natDecimalAux_acc, hd]
      simp

/-- Swallowing the printed digits of `n` multiplies the accumulator by
`10 ^ (number of digits)` and adds `n`. -/
theorem parseDigits_natDecimalAux : ∀ (fuel n : Nat), n < fuel → ∀ (acc : Nat) (rest : List Char),
    parseDigits (natDecimalAux fuel n [] ++ rest) acc =
      parseDigits rest (acc * 10 ^ (natDecimalAux fuel n []).length + n) := by
  intro fuel
  induction fuel with
  | zero => intro n h; omega
  | succ f ih =>
    intro n hn acc rest
    by_cases h : n < 10
    · have hmod : n % 10 = n := Nat.mod_eq_of_lt h
      simp only [natDecimalAux, if_pos h]
      simp only [List.cons_append, List.nil_append, parseDigits,
        digitChar_isDigit (n % 10) (by omega), if_pos]
      rw [digitChar_toNat_sub (n % 10) (by omega), hmod]
      simp
    · have hdiv : n / 10 < f := by omega
      have hsplit : natDecimalAux (f + 1) n [] =
          natDecimalAux f (n / 10) [] ++ [Nat.digitChar (n % 10)] := by
        simp only [natDecimalAux, if_neg h]
        rw [natDecimalAux_acc]
      rw [hsplit, List.append_assoc]
      simp only [List.cons_append, List.nil_append]
      rw [ih (n / 10) hdiv acc (Nat.digitChar (n % 10) :: rest)]
      simp only [parseDigits, digitChar_isDigit (n % 10) (by omega : n % 10 < 10), if_true]
      rw [digitChar_toNat_sub (n % 10) (by omega)]
      congr 1
      have hlen : (natDecimalAux f (n / 10) [] ++ [Nat.digitChar (n % 10)]).length
          = (natDecimalAux f (n / 10) []).length + 1 := by simp
      rw [hlen, pow_succ, ← mul_assoc]
      generalize acc * 10 ^ (natDecimalAux f (n / 10) []).length = k
      omega

/-- Parsing a JSON number: the printed decimal of `n` followed by a
non-digit remainder parses back to `n`. -/
theorem parseNat_natDecimal (n : Nat) (rest : List Char)
    (hrest : ∀ c l, rest = c :: l → c.isDigit = false) :
    parseNat (natDecimal n ++ rest) = some (n, rest) := by
  obtain ⟨d, l, hd, hdig⟩ := natDecimalAux_head (n + 1) n (by omega)
  have hstop : parseDigits rest n = (n, rest) := by
    cases rest with
    | nil => rfl
    | cons c l' =>
      have := hrest c l' rfl
      simp [parseDigits, this]
  have hdigits := parseDigits_natDecimalAux (n + 1) n (by omega) 0 rest
  rw [show natDecimal n = natDecimalAux (n + 1) n [] from rfl, hd]
  simp only [List.cons_append]
  rw [parseNat.eq_def]
  simp only [hdig, if_true]
  rw [← List.cons_append, ← hd, hdigits, hd]
  rw [Nat.zero_mul, Nat.zero_add, hstop]

/-- `JSON.parse ∘ JSON.stringify` is the identity on the message objects the
server writes (both `pushMsg` call sites pass no `extra`, so the serialized
object is exactly `{role, content, ts}`). -/
theorem parseMsg_encodeMsg (m : Msg) (h : m.sources = none) :
    parseMsg (encodeMsg m) = some m := by
  obtain ⟨role, content, ts, srcs⟩ := m
  simp only [Msg.sources] at h
  subst h
  have h7d : ∀ (c : Char) (l : List Char), ['\x7d'] = c :: l → c.isDigit = false := by
    intro c l hcl
    cases hcl
    decide
  have hnum := parseNat_natDecimal ts ['\x7d'] h7d
  have hdata : (encodeMsg ⟨role, content, ts, none⟩).data =
      "\x7b\"role\":".data ++ ('"' :: (escStrL role.data ++ ('"' ::
        (",\"content\":".data ++ ('"' :: (escStrL content.data ++ ('"' ::
          (",\"ts\":".data ++ (natDecimal ts ++ ['\x7d']))))))))) := by
    simp [encodeMsg, jsonStrLit]
  rw [parseMsg.eq_def, hdata, stripL_append]
  simp only [parseJString_escStrL, stripL_append, hnum, mk_data_eq]

/-! ## Lemmas about the in-memory store -/

/-- Reading back a key just written. -/
theorem storeGet_storeSet_self (st : Store) (k : String) (v : List String) :
    storeGet (storeSet st k v) k = some v := by
  induction st with
  | nil => simp [storeSet, storeGet]
  | cons kv rest ih =>
    obtain ⟨k', v'⟩ := kv
    by_cases h : k' = k
    · simp [storeSet, storeGet, h]
    · simp [storeSet, storeGet, h, ih]

/-- The session log stored under a key (absent key reads as the empty
log, exactly as `mem.get(k) || []`). -/
def logOf (st : Store) (k : String) : List String :=
  (storeGet st k).getD []

/-- `rpush` appends one element to the keyed log. -/
theorem logOf_memRpush (st : Store) (k v : String) :
    logOf (memRpush st k v) k = logOf st k ++ [v] := by
  simp [logOf, memRpush, storeGet_storeSet_self]

/-- `lrange(k, 0, -1)` returns the whole keyed log. -/
theorem memLrange_all (st : Store) (k : String) :
    memLrange st k 0 (-1) = logOf st k := by
  simp [memLrange, logOf]

/-- Folding `pushMsg` over a list of messages appends their serializations
to the session log, in order. -/
theorem logOf_pushMsg_fold : ∀ (msgs : List Msg) (st : Store) (id : String),
    logOf (msgs.foldl (fun s mm => pushMsg s id mm) st) (sessionKey id) =
      logOf st (sessionKey id) ++ msgs.map encodeMsg := by
  intro msgs
  induction msgs with
  | nil => intro st id; simp
  | cons m ms ih =>
    intro st id
    simp only [List.foldl_cons, List.map_cons]
    rw [ih (pushMsg st id m) id, pushMsg, logOf_memRpush]
    simp

/-- Claim C8: for every session and every sequence of messages appended via
`pushMsg` (the write path of chat — which always serializes the three-key
object, `sources = none`), `getHistory` returns the messages in the same
insertion order with identical `role` and `content` (indeed all) fields,
under the local in-process store backend. -/
theorem getHistory_pushMsg_roundtrip (id : String) (msgs : List Msg)
    (h : ∀ m ∈ msgs, m.sources = none) :
    getHistory (msgs.foldl (fun st m => pushMsg st id m) emptyStore) id = msgs.map some := by
  simp only [getHistory]
  rw [memLrange_all, logOf_pushMsg_fold]
  rw [show logOf emptyStore (sessionKey id) = [] from rfl, List.nil_append, List.map_map]
  apply List.map_congr_left
  intro m hm
  exact parseMsg_encodeMsg m (h m hm)

/-- Claim C8 witness: two messages (with quotes, newlines and a control
character in the content) pushed onto session `s1` read back identically
and in order. -/
theorem getHistory_pushMsg_roundtrip_witness :
    getHistory
      ([⟨"user", "he said \"hi\"\nthen\tleft\x01", 111, none⟩,
        ⟨"assistant", "backs\\ash “quote”", 222, none⟩].foldl
        (fun st m => pushMsg st "s1" m) emptyStore) "s1" =
      [some ⟨"user", "he said \"hi\"\nthen\tleft\x01", 111, none⟩,
       some ⟨"assistant", "backs\\ash “quote”", 222, none⟩] :=
  getHistory_pushMsg_roundtrip "s1"
    [⟨"user", "he said \"hi\"\nthen\tleft\x01", 111, none⟩,
     ⟨"assistant", "backs\\ash “quote”", 222, none⟩]
    (by decide)

/-! ## Lemmas about the prompt builder, fallback and handler -/

/-- Length of an index-aware map. -/
theorem enumMap_length (f : Nat → α → β) : ∀ (k : Nat) (l : List α),
    (enumMap f k l).length = l.length := by
  intro k l
  induction l generalizing k with
  | nil => rfl
  | cons a as ih => simp [enumMap, ih]

/-- Element of an index-aware map: position `i` holds `f (k + i)` of the
`i`-th input element. -/
theorem enumMap_get? (f : Nat → α → β) : ∀ (l : List α) (k i : Nat),
    (enumMap f k l).get? i = (l.get? i).map (fun a => f (k + i) a) := by
  intro l
  induction l with
  | nil => intro k i; simp [enumMap]
  | cons a as ih =>
    intro k i
    cases i with
    | zero => simp [enumMap]
    | succ j =>
      simp only [enumMap, List.get?_cons_succ]
      rw [ih (k + 1) j, show k + 1 + j = k + (j + 1) by omega]

/-- The join of a non-empty list starts with its first element. -/
theorem joinSep_cons_data (sep x : String) (xs : List String) :
    ∃ t, (joinSep sep (x :: xs)).data = x.data ++ t := by
  cases xs with
  | nil => exact ⟨[], by simp [joinSep]⟩
  | cons y ys =>
    refine ⟨sep.data ++ (joinSep sep (y :: ys)).data, ?_⟩
    simp [joinSep, String.data_append]

/-- The busy-fallback answer is never the empty string (its fixed notice
prefix is non-empty even when `passages` is empty). -/
theorem busyFallback_ne_empty (q : String) (ps : List Passage) : busyFallback q ps ≠ "" := by
  intro hcon
  have hdata := congrArg String.data hcon
  simp only [busyFallback, busyNotice, String.data_append] at hdata
  simp at hdata

/-- The canned empty-response substitution is non-empty. -/
theorem cannedUnsure_ne_empty : cannedUnsure ≠ "" := by decide

/-- Whatever the generation outcome, the answer the handler selects is a
non-empty string. -/
theorem answerOf_ne_empty (run : GemRun) (ms : String) (ps : List Passage) :
    answerOf run ms ps ≠ "" := by
  rcases run with ⟨outcome, attempts, sleeps⟩
  cases outcome with
  | ok raw =>
    by_cases ht : jsTrim raw = ""
    · simpa [answerOf, ht] using cannedUnsure_ne_empty
    · simp [answerOf, ht]
  | err e => simpa [answerOf] using busyFallback_ne_empty ms ps
  | unavailable => simpa [answerOf] using busyFallback_ne_empty ms ps

/-- If no generation attempt succeeds, the handler's answer is the busy
fallback. -/
theorem answerOf_of_no_ok (run : GemRun) (ms : String) (ps : List Passage)
    (h : ∀ t, run.outcome ≠ GemOutcome.ok t) :
    answerOf run ms ps = busyFallback ms ps := by
  rcases run with ⟨outcome, attempts, sleeps⟩
  cases outcome with
  | ok raw => exact absurd rfl (h raw)
  | err e => rfl
  | unavailable => rfl

/-- Unfolding of the handler on the all-successful path. -/
theorem chatHandler_success (env : ChatEnv) (st : Store) (s ms : String)
    (passages : List Passage) (hs : ¬s = "") (hm : ¬ms = "")
    (hpu : env.pushUserOk = true) (hret : env.retrieval = .ok passages)
    (hpa : env.pushAssistantOk = true) :
    chatHandler env st (some s) (some ms) =
      ⟨ChatResp.ok
          (answerOf
            (askGemini (env.raw (buildPrompt ms passages)) env.jitter env.LLM_RETRIES
              env.LLM_RETRY_MS) ms passages)
          (sourcesOf passages),
        pushMsg (pushMsg st s ⟨"user", ms, env.tsUser, none⟩) s
          ⟨"assistant",
            answerOf
              (askGemini (env.raw (buildPrompt ms passages)) env.jitter env.LLM_RETRIES
                env.LLM_RETRY_MS) ms passages,
            env.tsAssistant, none⟩,
        [(s, ⟨"user", ms, env.tsUser, none⟩),
         (s, ⟨"assistant",
              answerOf
                (askGemini (env.raw (buildPrompt ms passages)) env.jitter env.LLM_RETRIES
                  env.LLM_RETRY_MS) ms passages,
              env.tsAssistant, none⟩)]⟩ := by
  simp [chatHandler, jsFalsy, hs, hm, hpu, hret, hpa]

/-- Claim C7: a `POST /api/chat` request in which `sessionId` or `message`
is missing is answered 400 `{error: "sessionId & message required"}`, the
store is untouched and no message is appended to any session's log. -/
theorem chat_missing_field_rejected (env : ChatEnv) (st : Store)
    (sessionId message : Option String)
    (h : sessionId = none ∨ message = none) :
    (chatHandler env st sessionId message).resp
      = ChatResp.badRequest "sessionId & message required" ∧
    (chatHandler env st sessionId message).store = st ∧
    (chatHandler env st sessionId message).pushed = [] := by
  have hf : (jsFalsy sessionId || jsFalsy message) = true := by
    rcases h with h | h <;> subst h <;> simp [jsFalsy]
  simp [chatHandler, hf]

/-- Claim C7 witness: a request with a message but no `sessionId`. -/
theorem chat_missing_field_rejected_witness :
    (chatHandler ⟨true, true, .ok [], fun _ _ => .ok "", fun _ => 0, 3, 800, 0, 0⟩
        emptyStore none (some "what is the news?")).resp
      = ChatResp.badRequest "sessionId & message required" ∧
    (chatHandler ⟨true, true, .ok [], fun _ _ => .ok "", fun _ => 0, 3, 800, 0, 0⟩
        emptyStore none (some "what is the news?")).store = emptyStore ∧
    (chatHandler ⟨true, true, .ok [], fun _ _ => .ok "", fun _ => 0, 3, 800, 0, 0⟩
        emptyStore none (some "what is the news?")).pushed = [] :=
  chat_missing_field_rejected
    ⟨true, true, .ok [], fun _ _ => .ok "", fun _ => 0, 3, 800, 0, 0⟩
    emptyStore none (some "what is the news?") (Or.inl rfl)

/-- Claim C9: every 200 response of the chat handler carries a non-empty
answer: a successful generation that trims to empty is replaced by the
canned "I am unsure" text, and a failed generation by the busy fallback,
whose fixed notice prefix is non-empty even when `passages` is empty. -/
theorem chat_ok_answer_nonempty (env : ChatEnv) (st : Store)
    (sessionId message : Option String) (a : String) (srcs : List Source)
    (h : (chatHandler env st sessionId message).resp = ChatResp.ok a srcs) : a ≠ "" := by
  rcases sessionId with _ | s
  · simp [chatHandler, jsFalsy] at h
  rcases message with _ | ms
  · simp [chatHandler, jsFalsy] at h
  by_cases hs : s = ""
  · subst hs
    simp [chatHandler, jsFalsy] at h
  by_cases hm : ms = ""
  · subst hm
    simp [chatHandler, jsFalsy] at h
  cases hpu : env.pushUserOk with
  | false => simp [chatHandler, jsFalsy, hs, hm, hpu] at h
  | true =>
    cases hret : env.retrieval with
    | error err => simp [chatHandler, jsFalsy, hs, hm, hpu, hret] at h
    | ok passages =>
      cases hpa : env.pushAssistantOk with
      | false => simp [chatHandler, jsFalsy, hs, hm, hpu, hret, hpa] at h
      | true =>
        rw [chatHandler_success env st s ms passages hs hm hpu hret hpa] at h
        simp only [ChatResp.ok.injEq] at h
        rw [← h.1]
        exact answerOf_ne_empty _ ms passages

/-- Claim C9 witness: a successful run whose model text trims to empty —
the 200 answer is the canned non-empty substitution. -/
theorem chat_ok_answer_nonempty_witness :
    (chatHandler ⟨true, true, .ok [], fun _ _ => .ok "  ", fun _ => 0, 3, 800, 0, 0⟩
        emptyStore (some "s1") (some "hi")).resp = ChatResp.ok cannedUnsure [] ∧
    cannedUnsure ≠ "" :=
  ⟨by decide,
   chat_ok_answer_nonempty
     ⟨true, true, .ok [], fun _ _ => .ok "  ", fun _ => 0, 3, 800, 0, 0⟩
     emptyStore (some "s1") (some "hi") cannedUnsure [] (by decide)⟩

/-- Claim C6: `sources[i].id = i + 1` for every index, and the rendered
context block at position `i` of the prompt built from the same passages is
numbered `i + 1` as well (`# Source ⟨i+1⟩ (title) ...`), so passage `i` is
numbered `i + 1` in both the prompt and the response. -/
theorem chat_citation_numbering (passages : List Passage) (i : Nat)
    (h : i < passages.length) :
    (∀ q, buildPrompt q passages =
      "You are a news assistant. Use ONLY the context below. If the answer is unknown, say you are unsure.\n\n## Context\n"
        ++ joinSep "\n\n" (promptBlocks passages)
        ++ "\n\n## Task\nQuestion: " ++ q
        ++ "\nAnswer clearly with citations like [S1], [S2] referring to the numbered sources.") ∧
    ∃ p, passages.get? i = some p ∧
      (sourcesOf passages).get? i = some ⟨i + 1, p.title, p.url⟩ ∧
      (promptBlocks passages).get? i =
        some ("# Source " ++ toString (i + 1) ++ " (" ++ p.title ++ ")\n" ++ p.chunk
          ++ "\nURL: " ++ p.url) := by
  have hp' : passages.get? i = some (passages.get ⟨i, h⟩) := List.get?_eq_get h
  refine ⟨fun q => rfl, passages.get ⟨i, h⟩, hp', ?_, ?_⟩
  · rw [sourcesOf, enumMap_get? _ passages 0 i, hp']
    simp
  · rw [promptBlocks, enumMap_get? _ passages 0 i, hp']
    simp [ctxBlock]

/-- Claim C6 witness: two passages; checked at index 1. -/
theorem chat_citation_numbering_witness :
    (1 : Nat) < 2 ∧
    (sourcesOf [⟨9, "A", "ua", "ca"⟩, ⟨8, "B", "ub", "cb"⟩]).get? 1
      = some ⟨2, "B", "ub"⟩ ∧
    (promptBlocks [⟨9, "A", "ua", "ca"⟩, ⟨8, "B", "ub", "cb"⟩]).get? 1
      = some "# Source 2 (B)\ncb\nURL: ub" :=
  have h := chat_citation_numbering [⟨9, "A", "ua", "ca"⟩, ⟨8, "B", "ub", "cb"⟩] 1 (by decide)
  ⟨by decide, by
    obtain ⟨hbp, p, hp, hsrc, hblk⟩ := h
    have hp2 : p = ⟨8, "B", "ub", "cb"⟩ := by
      have : some p = some ⟨8, "B", "ub", "cb"⟩ := by rw [← hp]; decide
      simpa using this
    subst hp2
    exact ⟨hsrc, by simpa using hblk⟩⟩

/-- The first retrieved passage's title occurs (as a substring) in the busy
fallback answer. -/
theorem busyFallback_head_title (ms : String) (p : Passage) (ps' : List Passage) :
    p.title.data <:+: (busyFallback ms (p :: ps')).data := by
  obtain ⟨t, ht⟩ := joinSep_cons_data "\n" (bulletLine 0 p) (enumMap bulletLine 1 (ps'.take 4))
  refine ⟨(busyNotice ms).data ++ ("• [S" ++ toString (0 + 1) ++ "] ").data, t, ?_⟩
  have htake : (p :: ps').take 5 = p :: ps'.take 4 := rfl
  simp only [busyFallback, String.data_append, htake]
  rw [show enumMap bulletLine 0 (p :: ps'.take 4)
      = bulletLine 0 p :: enumMap bulletLine 1 (ps'.take 4) from rfl, ht]
  simp [bulletLine, String.data_append, List.append_assoc]

/-- Claim C5: with non-empty retrieved passages, if every generation attempt
fails the request still returns 200 with the busy-fallback answer: a
non-empty string containing the first source title, built as the fixed
notice followed by a "\n"-joined bulleted list of the first
`min 5 |passages|` titles, the `i`-th line tagged `[S⟨i+1⟩]`. -/
theorem chat_generation_failure_degrades (env : ChatEnv) (st : Store) (s ms : String)
    (passages : List Passage)
    (hs : ¬s = "") (hm : ¬ms = "")
    (hpu : env.pushUserOk = true) (hpa : env.pushAssistantOk = true)
    (hret : env.retrieval = .ok passages) (hne : passages ≠ [])
    (hfail : ∀ i, ∃ e, env.raw (buildPrompt ms passages) i = .error e) :
    (chatHandler env st (some s) (some ms)).resp
      = ChatResp.ok (busyFallback ms passages) (sourcesOf passages) ∧
    busyFallback ms passages ≠ "" ∧
    (∃ p, p ∈ passages ∧ p.title.data <:+: (busyFallback ms passages).data) ∧
    busyFallback ms passages
      = busyNotice ms ++ joinSep "\n" (enumMap bulletLine 0 (passages.take 5)) ∧
    (enumMap bulletLine 0 (passages.take 5)).length = min 5 passages.length ∧
    (∀ i, i < min 5 passages.length →
      ∃ p, passages.get? i = some p ∧
        (enumMap bulletLine 0 (passages.take 5)).get? i
          = some ("• [S" ++ toString (i + 1) ++ "] " ++ p.title)) := by
  have hno : ∀ t, (askGemini (env.raw (buildPrompt ms passages)) env.jitter env.LLM_RETRIES
      env.LLM_RETRY_MS).outcome ≠ GemOutcome.ok t := by
    intro t
    rw [askGemini]
    exact askGeminiAux_no_ok _ env.jitter env.LLM_RETRIES hfail _ _ _ t
  have hans := answerOf_of_no_ok _ ms passages hno
  refine ⟨?_, busyFallback_ne_empty ms passages, ?_, rfl, ?_, ?_⟩
  · rw [chatHandler_success env st s ms passages hs hm hpu hret hpa]
    simp [hans]
  · obtain ⟨p, ps', rfl⟩ : ∃ p ps', passages = p :: ps' := by
      cases passages with
      | nil => exact absurd rfl hne
      | cons p ps' => exact ⟨p, ps', rfl⟩
    exact ⟨p, List.mem_cons_self p ps', busyFallback_head_title ms p ps'⟩
  · rw [enumMap_length, List.length_take]
  · intro i hi
    have hitake : i < 5 := by omega
    have hilen : i < passages.length := by omega
    refine ⟨passages.get ⟨i, hilen⟩, List.get?_eq_get hilen, ?_⟩
    rw [enumMap_get? bulletLine (passages.take 5) 0 i, List.get?_take hitake,
      List.get?_eq_get hilen]
    simp [bulletLine]

/-- Claim C5 witness: two passages, a provider failing every attempt with
HTTP 503: the response is 200 with the busy fallback listing both titles. -/
theorem chat_generation_failure_degrades_witness :
    (chatHandler
        ⟨true, true, .ok [⟨1, "Tottenham win", "u1", "c1"⟩, ⟨1, "Zambia mining", "u2", "c2"⟩],
          fun _ _ => .error ⟨some 503, none⟩, fun _ => 0, 3, 800, 10, 20⟩
        emptyStore (some "s1") (some "football")).resp
      = ChatResp.ok
          (busyFallback "football"
            [⟨1, "Tottenham win", "u1", "c1"⟩, ⟨1, "Zambia mining", "u2", "c2"⟩])
          (sourcesOf [⟨1, "Tottenham win", "u1", "c1"⟩, ⟨1, "Zambia mining", "u2", "c2"⟩]) ∧
    busyFallback "football"
        [⟨1, "Tottenham win", "u1", "c1"⟩, ⟨1, "Zambia mining", "u2", "c2"⟩] ≠ "" :=
  have h := chat_generation_failure_degrades
    ⟨true, true, .ok [⟨1, "Tottenham win", "u1", "c1"⟩, ⟨1, "Zambia mining", "u2", "c2"⟩],
      fun _ _ => .error ⟨some 503, none⟩, fun _ => 0, 3, 800, 10, 20⟩
    emptyStore "s1" "football"
    [⟨1, "Tottenham win", "u1", "c1"⟩, ⟨1, "Zambia mining", "u2", "c2"⟩]
    (by decide) (by decide) rfl rfl rfl (by decide)
    (fun i => ⟨⟨some 503, none⟩, rfl⟩)
  ⟨h.1, h.2.1⟩

/-- Claim C1 counterexample: a request that reaches step 6 (generation
succeeded, an answer exists) but whose assistant-turn append fails is
answered 500 `chat_failed`, not the claimed 200 `{answer, sources}` — the
whole handler body sits in one `try`, so the store failure reaches the
catch of server.js line 255.  The push trace confirms the request got past
retrieval and generation: the user turn was appended and then the request
aborted. -/
theorem chat_assistant_push_failure_counterexample :
    (chatHandler
        ⟨true, false, .ok [⟨1, "T1", "u1", "c1"⟩], fun _ _ => .ok "An answer.",
          fun _ => 0, 3, 800, 10, 20⟩
        emptyStore (some "s1") (some "hello")).resp = ChatResp.serverError "chat_failed" ∧
    (chatHandler
        ⟨true, false, .ok [⟨1, "T1", "u1", "c1"⟩], fun _ _ => .ok "An answer.",
          fun _ => 0, 3, 800, 10, 20⟩
        emptyStore (some "s1") (some "hello")).pushed
      = [("s1", ⟨"user", "hello", 10, none⟩)] := by
  decide

/-- Claim C1 (amended): if appending the assistant turn fails, the handler
responds 500 `{error: "chat_failed"}` (assistant-turn durability does block
answer delivery); the user message remains the only append. -/
theorem chat_assistant_push_failure_500 (env : ChatEnv) (st : Store) (s ms : String)
    (passages : List Passage)
    (hs : ¬s = "") (hm : ¬ms = "")
    (hpu : env.pushUserOk = true) (hret : env.retrieval = .ok passages)
    (hpa : env.pushAssistantOk = false) :
    (chatHandler env st (some s) (some ms)).resp = ChatResp.serverError "chat_failed" ∧
    (chatHandler env st (some s) (some ms)).store
      = pushMsg st s ⟨"user", ms, env.tsUser, none⟩ ∧
    (chatHandler env st (some s) (some ms)).pushed
      = [(s, ⟨"user", ms, env.tsUser, none⟩)] := by
  simp [chatHandler, jsFalsy, hs, hm, hpu, hret, hpa]

/-- Claim C1 witness: the same run as the counterexample, through the
amended statement. -/
theorem chat_assistant_push_failure_500_witness :
    (chatHandler
        ⟨true, false, .ok [⟨1, "T1", "u1", "c1"⟩], fun _ _ => .ok "An answer.",
          fun _ => 0, 3, 800, 10, 20⟩
        emptyStore (some "s1") (some "hello")).resp = ChatResp.serverError "chat_failed" ∧
    (chatHandler
        ⟨true, false, .ok [⟨1, "T1", "u1", "c1"⟩], fun _ _ => .ok "An answer.",
          fun _ => 0, 3, 800, 10, 20⟩
        emptyStore (some "s1") (some "hello")).pushed
      = [("s1", ⟨"user", "hello", 10, none⟩)] :=
  have h := chat_assistant_push_failure_500
    ⟨true, false, .ok [⟨1, "T1", "u1", "c1"⟩], fun _ _ => .ok "An answer.",
      fun _ => 0, 3, 800, 10, 20⟩
    emptyStore "s1" "hello" [⟨1, "T1", "u1", "c1"⟩]
    (by decide) (by decide) rfl rfl rfl
  ⟨h.1, h.2.2⟩

/-- Claim C2 counterexample: a fully successful chat run over a non-empty
passage list appends an assistant message whose `sources` field is absent
(`none`) — `pushMsg(sessionId, 'assistant', answer)` at server.js line 253
passes no `extra` — even though the ordered sources list derived from the
passages is non-empty, so the appended message does not carry it. -/
theorem chat_sources_not_persisted_counterexample :
    (chatHandler
        ⟨true, true, .ok [⟨1, "T1", "u1", "c1"⟩], fun _ _ => .ok "An answer.",
          fun _ => 0, 3, 800, 10, 20⟩
        emptyStore (some "s1") (some "hello")).pushed
      = [("s1", ⟨"user", "hello", 10, none⟩),
         ("s1", ⟨"assistant", "An answer.", 20, none⟩)] ∧
    sourcesOf [⟨1, "T1", "u1", "c1"⟩] = [⟨1, "T1", "u1"⟩] ∧
    (none : Option (List Source)) ≠ some (sourcesOf [⟨1, "T1", "u1", "c1"⟩]) := by
  decide

/-- Claim C2 (amended): the assistant message appended to the session's log
carries only `role`, `content` and `ts`; its `sources` field is absent on
every path (generated, empty-response substitution or fallback).  The
ordered sources list derived from the retrieved passages appears only in
the HTTP response. -/
theorem chat_assistant_message_sources_none (env : ChatEnv) (st : Store) (s ms : String)
    (passages : List Passage)
    (hs : ¬s = "") (hm : ¬ms = "")
    (hpu : env.pushUserOk = true) (hret : env.retrieval = .ok passages)
    (hpa : env.pushAssistantOk = true) :
    (chatHandler env st (some s) (some ms)).pushed
      = [(s, ⟨"user", ms, env.tsUser, none⟩),
         (s, ⟨"assistant",
              answerOf
                (askGemini (env.raw (buildPrompt ms passages)) env.jitter env.LLM_RETRIES
                  env.LLM_RETRY_MS) ms passages,
              env.tsAssistant, none⟩)] ∧
    (chatHandler env st (some s) (some ms)).resp
      = ChatResp.ok
          (answerOf
            (askGemini (env.raw (buildPrompt ms passages)) env.jitter env.LLM_RETRIES
              env.LLM_RETRY_MS) ms passages)
          (sourcesOf passages) := by
  rw [chatHandler_success env st s ms passages hs hm hpu hret hpa]
  exact ⟨rfl, rfl⟩

/-- Claim C2 witness: the run of the counterexample, through the amended
statement. -/
theorem chat_assistant_message_sources_none_witness :
    (chatHandler
        ⟨true, true, .ok [⟨1, "T1", "u1", "c1"⟩], fun _ _ => .ok "An answer.",
          fun _ => 0, 3, 800, 10, 20⟩
        emptyStore (some "s1") (some "hello")).pushed
      = [("s1", ⟨"user", "hello", 10, none⟩),
         ("s1", ⟨"assistant",
              answerOf
                (askGemini
                  ((fun (_ : String) (_ : Nat) =>
                      (Except.ok "An answer." : Except GemErr String))
                    (buildPrompt "hello" [⟨1, "T1", "u1", "c1"⟩]))
                  (fun _ => 0) 3 800)
                "hello" [⟨1, "T1", "u1", "c1"⟩],
              20, none⟩)] :=
  (chat_assistant_message_sources_none
    ⟨true, true, .ok [⟨1, "T1", "u1", "c1"⟩], fun _ _ => .ok "An answer.",
      fun _ => 0, 3, 800, 10, 20⟩
    emptyStore "s1" "hello" [⟨1, "T1", "u1", "c1"⟩]
    (by decide) (by decide) rfl rfl rfl).1

end VooshRag
